import Mathlib

/-!
Verification of the two Next.js route handlers of this repository:
`app/seed/route.ts` (the database seeder) and `app/query/route.ts`
(the invoice query handler).  The SQL database client (`@vercel/postgres`)
and the password hasher (`bcrypt`) are external collaborators consumed as
opaque interfaces; their behaviour at each call site is modelled by an
environment of oracles (`Env`, `QEnv`), and the database itself by an
explicit state (`DB`) with the statement semantics the specification
describes (per-statement atomicity, insert-or-skip on the declared
conflict key, foreign-key checking on `invoices.customer_id`).
-/

namespace NextRoutes

/-- A row of the `users` table (`CREATE TABLE IF NOT EXISTS users` in
`seedUsers`): id, name, unique email, hashed password. -/
structure UserRow where
  id : String
  name : String
  email : String
  password : String
deriving DecidableEq

/-- A row of the `customers` table (`seedCustomers`). -/
structure CustomerRow where
  id : String
  name : String
  email : String
  image_url : String
deriving DecidableEq

/-- A row of the `invoices` table (`seedInvoices`).  Its `id` column has
`DEFAULT uuid_generate_v4()`; the seeder never supplies it, so we model the
generated UUIDs by a counter value (fresh ids never collide). -/
structure InvoiceRow where
  id : Nat
  customer_id : String
  amount : Int
  status : String
  date : String
deriving DecidableEq

/-- A row of the `revenue` table (`seedRevenue`): unique month label and
an integer revenue amount. -/
structure RevenueRow where
  month : String
  revenue : Int
deriving DecidableEq

/-- Modelled from the spec: a placeholder user of `app/lib/placeholder-data`
(a repository file not included under `src/`): id, name, email and a
plaintext password, per section 3 of the specification. -/
structure UserSeed where
  id : String
  name : String
  email : String
  password : String
deriving DecidableEq

/-- Modelled from the spec: a placeholder customer of
`app/lib/placeholder-data`: id, name, email, image reference. -/
structure CustomerSeed where
  id : String
  name : String
  email : String
  image_url : String
deriving DecidableEq

/-- Modelled from the spec: a placeholder invoice of
`app/lib/placeholder-data`: reference to a customer, amount, status and
date.  Placeholder invoices carry no id; the insert statement of
`seedInvoices` supplies none. -/
structure InvoiceSeed where
  customer_id : String
  amount : Int
  status : String
  date : String
deriving DecidableEq

/-- Modelled from the spec: a placeholder revenue entry of
`app/lib/placeholder-data`: month label and revenue amount. -/
structure RevenueSeed where
  month : String
  revenue : Int
deriving DecidableEq

/-- Modelled from the spec: the fixed placeholder dataset imported by
`app/seed/route.ts` from `../lib/placeholder-data` — four in-memory
sequences (users, customers, invoices, revenue). -/
structure Dataset where
  users : List UserSeed
  customers : List CustomerSeed
  invoices : List InvoiceSeed
  revenue : List RevenueSeed

/-- The database state: each table is `none` while it does not exist and
`some rows` once created; `ext` records whether the `uuid-ossp` extension
is installed; `nextId` feeds the generated invoice ids. -/
structure DB where
  ext : Bool
  usersTbl : Option (List UserRow)
  customersTbl : Option (List CustomerRow)
  invoicesTbl : Option (List InvoiceRow)
  revenueTbl : Option (List RevenueRow)
  nextId : Nat
deriving DecidableEq

/-- The empty database: no tables, no extension. -/
def DB.empty : DB := ⟨false, none, none, none, none, 0⟩

/-- Oracles for the external collaborators: `hash` is `bcrypt.hash`
(plaintext, cost factor) and `hashOk p` tells whether that call succeeds on
plaintext `p`; the `ddl*Ok`/`extOk` flags tell whether each DDL statement
succeeds; the `*InsertOk` predicates model transient failures of individual
row inserts (beyond the intrinsic constraint checks, which `DB` models
itself). -/
structure Env where
  hash : String → Nat → String
  hashOk : String → Bool
  extOk : Bool
  ddlUsersOk : Bool
  ddlCustomersOk : Bool
  ddlInvoicesOk : Bool
  ddlRevenueOk : Bool
  userInsertOk : UserSeed → Bool
  customerInsertOk : CustomerSeed → Bool
  invoiceInsertOk : InvoiceSeed → Bool
  revenueInsertOk : RevenueSeed → Bool

/-- `createExtensions` of `app/seed/route.ts`:
`CREATE EXTENSION IF NOT EXISTS "uuid-ossp"`. -/
def createExtensions (E : Env) (db : DB) : Except String DB :=
  if E.extOk then .ok { db with ext := true }
  else .error "create extension failed"

/-- The `CREATE TABLE IF NOT EXISTS users` statement of `seedUsers`. -/
def createUsersTable (E : Env) (db : DB) : Except String DB :=
  if E.ddlUsersOk then
    match db.usersTbl with
    | some _ => .ok db
    | none => .ok { db with usersTbl := some [] }
  else .error "create table users failed"

/-- The `CREATE TABLE IF NOT EXISTS customers` statement of
`seedCustomers`. -/
def createCustomersTable (E : Env) (db : DB) : Except String DB :=
  if E.ddlCustomersOk then
    match db.customersTbl with
    | some _ => .ok db
    | none => .ok { db with customersTbl := some [] }
  else .error "create table customers failed"

/-- The `CREATE TABLE IF NOT EXISTS invoices` statement of `seedInvoices`.
Its column `customer_id UUID NOT NULL REFERENCES customers(id)` makes the
creation fail when the `customers` table does not exist. -/
def createInvoicesTable (E : Env) (db : DB) : Except String DB :=
  if E.ddlInvoicesOk then
    match db.invoicesTbl with
    | some _ => .ok db
    | none =>
      match db.customersTbl with
      | some _ => .ok { db with invoicesTbl := some [] }
      | none => .error "relation customers does not exist"
  else .error "create table invoices failed"

/-- The `CREATE TABLE IF NOT EXISTS revenue` statement of `seedRevenue`. -/
def createRevenueTable (E : Env) (db : DB) : Except String DB :=
  if E.ddlRevenueOk then
    match db.revenueTbl with
    | some _ => .ok db
    | none => .ok { db with revenueTbl := some [] }
  else .error "create table revenue failed"

/-- The parameterized insert of `seedUsers`:
`INSERT INTO users (id, name, email, password) VALUES (...) ON CONFLICT (id)
DO NOTHING`, with the password already hashed by `bcrypt.hash(_, 10)`.
A conflict on `id` is skipped; a conflict on the unique `email` column is
not covered by the conflict target and errors. -/
def insertUser (E : Env) (u : UserSeed) (db : DB) : Except String DB :=
  match db.usersTbl with
  | none => .error "relation users does not exist"
  | some rows =>
    if E.userInsertOk u then
      if rows.any (fun r => r.id == u.id) then .ok db
      else if rows.any (fun r => r.email == u.email) then
        .error "duplicate key value violates unique constraint on email"
      else
        .ok { db with
          usersTbl := some (rows ++ [⟨u.id, u.name, u.email, E.hash u.password 10⟩]) }
    else .error "insert user failed"

/-- The parameterized insert of `seedCustomers`:
`INSERT INTO customers (id, name, email, image_url) VALUES (...)
ON CONFLICT (id) DO NOTHING`. -/
def insertCustomer (E : Env) (c : CustomerSeed) (db : DB) : Except String DB :=
  match db.customersTbl with
  | none => .error "relation customers does not exist"
  | some rows =>
    if E.customerInsertOk c then
      if rows.any (fun r => r.id == c.id) then .ok db
      else if rows.any (fun r => r.email == c.email) then
        .error "duplicate key value violates unique constraint on email"
      else
        .ok { db with
          customersTbl := some (rows ++ [⟨c.id, c.name, c.email, c.image_url⟩]) }
    else .error "insert customer failed"

/-- The parameterized insert of `seedInvoices`:
`INSERT INTO invoices (customer_id, amount, status, date) VALUES (...)
ON CONFLICT (id) DO NOTHING`.  No `id` is supplied, so the database
generates a fresh one (`nextId`), which can never conflict; the declared
foreign key on `customer_id` is checked against the `customers` table. -/
def insertInvoice (E : Env) (iv : InvoiceSeed) (db : DB) : Except String DB :=
  match db.invoicesTbl with
  | none => .error "relation invoices does not exist"
  | some rows =>
    if E.invoiceInsertOk iv then
      if (db.customersTbl.getD []).any (fun c => c.id == iv.customer_id) then
        .ok { db with
          invoicesTbl := some (rows ++ [⟨db.nextId, iv.customer_id, iv.amount, iv.status, iv.date⟩]),
          nextId := db.nextId + 1 }
      else .error "insert or update on table invoices violates foreign key constraint"
    else .error "insert invoice failed"

/-- The parameterized insert of `seedRevenue`:
`INSERT INTO revenue (month, revenue) VALUES (...) ON CONFLICT (month)
DO NOTHING`. -/
def insertRevenue (E : Env) (r : RevenueSeed) (db : DB) : Except String DB :=
  match db.revenueTbl with
  | none => .error "relation revenue does not exist"
  | some rows =>
    if E.revenueInsertOk r then
      if rows.any (fun x => x.month == r.month) then .ok db
      else .ok { db with revenueTbl := some (rows ++ [⟨r.month, r.revenue⟩]) }
    else .error "insert revenue failed"

/-- One row of the `users.map` fan-out in `seedUsers`: `bcrypt.hash` is
awaited outside the `try`, so its failure escapes; the insert itself sits
inside `try/catch`, so its failure is logged and swallowed (the row simply
yields no result). -/
def seedUserRow (E : Env) (db : DB) (u : UserSeed) : Except String DB :=
  if E.hashOk u.password then
    match insertUser E u db with
    | .ok db' => .ok db'
    | .error _ => .ok db
  else .error "bcrypt hash failed"

/-- One row of the `customers.map` fan-out in `seedCustomers`: the whole
insert sits inside `try/catch`, so any failure is swallowed. -/
def seedCustomerRow (E : Env) (db : DB) (c : CustomerSeed) : Except String DB :=
  match insertCustomer E c db with
  | .ok db' => .ok db'
  | .error _ => .ok db

/-- One row of the `invoices.map` fan-out in `seedInvoices`: the whole
insert sits inside `try/catch`, so any failure is swallowed. -/
def seedInvoiceRow (E : Env) (db : DB) (iv : InvoiceSeed) : Except String DB :=
  match insertInvoice E iv db with
  | .ok db' => .ok db'
  | .error _ => .ok db

/-- One row of the `revenue.map` fan-out in `seedRevenue`: the whole insert
sits inside `try/catch`, so any failure is swallowed. -/
def seedRevenueRow (E : Env) (db : DB) (r : RevenueSeed) : Except String DB :=
  match insertRevenue E r db with
  | .ok db' => .ok db'
  | .error _ => .ok db

/-- The `Promise.all` fan-out over the rows of one seeding step.  All the
per-row statements run on the single shared connection and the step waits
for all of them to settle; their combined effect on the database is their
effects in sequence, an error aborting the barrier. -/
def seedRows {α : Type} (f : DB → α → Except String DB) : DB → List α → Except String DB
  | db, [] => .ok db
  | db, a :: rest =>
    match f db a with
    | .ok db' => seedRows f db' rest
    | .error e => .error e

/-- `seedUsers` of `app/seed/route.ts`: create the table, then the hashed
insert fan-out over the placeholder users. -/
def seedUsers (E : Env) (D : Dataset) (db : DB) : Except String DB :=
  match createUsersTable E db with
  | .ok db0 => seedRows (seedUserRow E) db0 D.users
  | .error e => .error e

/-- `seedCustomers` of `app/seed/route.ts`. -/
def seedCustomers (E : Env) (D : Dataset) (db : DB) : Except String DB :=
  match createCustomersTable E db with
  | .ok db0 => seedRows (seedCustomerRow E) db0 D.customers
  | .error e => .error e

/-- `seedInvoices` of `app/seed/route.ts`. -/
def seedInvoices (E : Env) (D : Dataset) (db : DB) : Except String DB :=
  match createInvoicesTable E db with
  | .ok db0 => seedRows (seedInvoiceRow E) db0 D.invoices
  | .error e => .error e

/-- `seedRevenue` of `app/seed/route.ts`. -/
def seedRevenue (E : Env) (D : Dataset) (db : DB) : Except String DB :=
  match createRevenueTable E db with
  | .ok db0 => seedRows (seedRevenueRow E) db0 D.revenue
  | .error e => .error e

/-- The five awaited seeding steps of the seed `GET` handler, in source
order. -/
inductive StepName
  | ext
  | users
  | customers
  | invoices
  | revenue
deriving DecidableEq

/-- Observable events of one seed invocation: transaction begin, start and
settle-barrier completion of each step, commit, rollback. -/
inductive Ev
  | beginTx
  | stepStart (s : StepName)
  | stepEnd (s : StepName)
  | commitTx
  | rollbackTx
deriving DecidableEq

/-- Dispatch a step name to the step of `app/seed/route.ts` it names. -/
def runStep (E : Env) (D : Dataset) : StepName → DB → Except String DB
  | .ext => createExtensions E
  | .users => seedUsers E D
  | .customers => seedCustomers E D
  | .invoices => seedInvoices E D
  | .revenue => seedRevenue E D

/-- Run one awaited step, recording its start and (on success) the
completion of its settle barrier in the event trace. -/
def runStepT (E : Env) (D : Dataset) (s : StepName) (db : DB) (tr : List Ev) :
    Except String DB × List Ev :=
  match runStep E D s db with
  | .ok db' => (.ok db', tr ++ [Ev.stepStart s, Ev.stepEnd s])
  | .error e => (.error e, tr ++ [Ev.stepStart s])

/-- Sequencing of awaited steps: the next step starts only if the previous
one succeeded. -/
def andThenT (r : Except String DB × List Ev)
    (f : DB → List Ev → Except String DB × List Ev) : Except String DB × List Ev :=
  match r with
  | (.ok db, tr) => f db tr
  | (.error e, tr) => (.error e, tr)

/-- The body of the `try` block of the seed `GET` handler: `BEGIN`, then the
five awaited steps in source order. -/
def seedTx (E : Env) (D : Dataset) (db : DB) : Except String DB × List Ev :=
  andThenT (andThenT (andThenT (andThenT
    (runStepT E D .ext db [Ev.beginTx])
    (fun db1 tr => runStepT E D .users db1 tr))
    (fun db2 tr => runStepT E D .customers db2 tr))
    (fun db3 tr => runStepT E D .invoices db3 tr))
    (fun db4 tr => runStepT E D .revenue db4 tr)

/-- An HTTP response as the handlers build it: `new Response(body)` defaults
to status 200 with no headers; `new Response(body, \x7b status: 500 \x7d)`
sets the status and still no headers. -/
structure HttpResponse where
  status : Nat
  body : String
  headers : List (String × String)
deriving DecidableEq

/-- The seed `GET` handler of `app/seed/route.ts`: on success `COMMIT` and a
plain 200 response; on any escaped error `ROLLBACK` (the database reverts to
its state before `BEGIN`), the error is logged, and a plain 500 response
that does not mention the error is returned.  Result: the response, the
database state after the invocation, and the event trace. -/
def seedGET (E : Env) (D : Dataset) (db : DB) : HttpResponse × DB × List Ev :=
  match seedTx E D db with
  | (.ok db', tr) =>
    (⟨200, "Database seeded successfully", []⟩, db', tr ++ [Ev.commitTx])
  | (.error _, tr) =>
    (⟨500, "Error seeding database", []⟩, db, tr ++ [Ev.rollbackTx])

/-- The full event trace of a successful seed invocation. -/
def seedEventOrder : List Ev :=
  [Ev.beginTx,
   Ev.stepStart .ext, Ev.stepEnd .ext,
   Ev.stepStart .users, Ev.stepEnd .users,
   Ev.stepStart .customers, Ev.stepEnd .customers,
   Ev.stepStart .invoices, Ev.stepEnd .invoices,
   Ev.stepStart .revenue, Ev.stepEnd .revenue,
   Ev.commitTx]

/-- A row of the result set of the query in `listInvoices`
(`app/query/route.ts`): `SELECT invoices.amount, customers.name`. -/
structure QRow where
  amount : Int
  name : String
deriving DecidableEq

/-- The contribution of one invoice row to the join
`FROM invoices JOIN customers ON invoices.customer_id = customers.id
WHERE invoices.amount = 666`: one output row per matching customer. -/
def joinRow (cs : List CustomerRow) (iv : InvoiceRow) : List QRow :=
  cs.filterMap (fun c =>
    if iv.customer_id == c.id && iv.amount == 666 then some ⟨iv.amount, c.name⟩
    else none)

/-- The read-only query of `listInvoices`; `none` when one of the two
relations it reads does not exist (the statement then errors). -/
def invoiceQuery (db : DB) : Option (List QRow) :=
  match db.invoicesTbl, db.customersTbl with
  | some ivs, some cs => some (ivs.flatMap (joinRow cs))
  | _, _ => none

/-- Oracles for the query handler's external calls: does `db.connect()`
succeed, and does the (well-formed) query execution succeed. -/
structure QEnv where
  connectOk : Bool
  queryOk : Bool

/-- Observable connection events of one query invocation. -/
inductive QEv
  | connected
  | connectFailed
  | released
deriving DecidableEq

/-- `listInvoices` of `app/query/route.ts`: `await db.connect()`, then the
query inside `try/catch/finally`.  A connection failure escapes before any
client exists; once connected, the `finally` releases the client exactly
once on every path, and a query error is logged and rethrown.  Result: the
rows or the escaped error, plus the connection event trace. -/
def listInvoices (E : QEnv) (db : DB) : Except String (List QRow) × List QEv :=
  if E.connectOk then
    match invoiceQuery db with
    | some rows =>
      if E.queryOk then (.ok rows, [QEv.connected, QEv.released])
      else (.error "query execution failed", [QEv.connected, QEv.released])
    | none => (.error "relation does not exist", [QEv.connected, QEv.released])
  else (.error "failed to connect", [QEv.connectFailed])

/-- `JSON.stringify` of one result row: keys in column order. -/
def jsonOfQRow (r : QRow) : String :=
  "\x7b\"amount\":" ++ toString r.amount ++ ",\"name\":\"" ++ r.name ++ "\"\x7d"

/-- `JSON.stringify` of the result array. -/
def jsonOfRows (rs : List QRow) : String :=
  "[" ++ String.intercalate "," (rs.map jsonOfQRow) ++ "]"

/-- The JSON encoding of the fixed error object whose `error` field holds
the text "Failed to fetch invoices". -/
def failedFetchBody : String := "\x7b\"error\":\"Failed to fetch invoices\"\x7d"

/-- The query `GET` handler of `app/query/route.ts`: on success a 200
response whose body is the JSON-encoded row array; on any caught error a
500 response with the fixed JSON error body.  Neither `new Response` call
passes a `headers` option.  Result: the response and the connection event
trace. -/
def queryGET (E : QEnv) (db : DB) : HttpResponse × List QEv :=
  match listInvoices E db with
  | (.ok rows, evs) => (⟨200, jsonOfRows rows, []⟩, evs)
  | (.error _, evs) => (⟨500, failedFetchBody, []⟩, evs)

/-- A concrete environment in which every external call succeeds; the hash
oracle prefixes its input, so its output is never the plaintext itself. -/
def sampleEnv : Env :=
  ⟨fun p _ => "hashed:" ++ p, fun _ => true, true, true, true, true, true,
   fun _ => true, fun _ => true, fun _ => true, fun _ => true⟩

/-- A concrete placeholder dataset in the shape of
`app/lib/placeholder-data`: one user, one customer, one invoice referencing
that customer, one revenue entry. -/
def sampleData : Dataset :=
  ⟨[⟨"u1", "Alice", "alice@example.com", "pw1"⟩],
   [⟨"c1", "Acme", "acme@example.com", "img1"⟩],
   [⟨"c1", 666, "paid", "2024-01-01"⟩],
   [⟨"Jan", 1000⟩]⟩

/-- A concrete seeded database for the query-handler claims: one customer
named Acme, and exactly one invoice with amount 666 referencing it. -/
def sampleQueryDB : DB :=
  ⟨true, some [],
   some [⟨"c1", "Acme", "acme@example.com", "img1"⟩],
   some [⟨0, "c1", 666, "paid", "2024-01-01"⟩, ⟨1, "c1", 250, "pending", "2024-01-02"⟩],
   some [], 2⟩

/-- A query environment in which connection and query both succeed. -/
def sampleQEnvOk : QEnv := ⟨true, true⟩

/-- A query environment in which the connection cannot be acquired. -/
def sampleQEnvNoConnect : QEnv := ⟨false, true⟩

/-- A placeholder dataset whose middle invoice references a customer id
that no placeholder customer has. -/
def sampleData3 : Dataset :=
  ⟨[⟨"u1", "Alice", "alice@example.com", "pw1"⟩],
   [⟨"c1", "Acme", "acme@example.com", "img1"⟩],
   [⟨"c1", 100, "paid", "2024-01-01"⟩, ⟨"ghost", 200, "pending", "2024-01-02"⟩,
    ⟨"c1", 300, "paid", "2024-01-03"⟩],
   [⟨"Jan", 1000⟩]⟩

/-- A database whose four tables exist but are all empty. -/
def sampleQueryDB2 : DB := ⟨true, some [], some [], some [], some [], 0⟩

/-- The customer row the `seedCustomers` insert stores for a placeholder
customer. -/
def custRow (c : CustomerSeed) : CustomerRow := ⟨c.id, c.name, c.email, c.image_url⟩

/-- The invoice rows a run of the `seedInvoices` fan-out appends, given the
customer rows present and the next generated id: rows whose foreign key
resolves are inserted with consecutive generated ids; the others are
skipped. -/
def invoiceRowsFrom (cs : List CustomerRow) : Nat → List InvoiceSeed → List InvoiceRow
  | _, [] => []
  | n, iv :: rest =>
    if cs.any (fun c => c.id == iv.customer_id) then
      ⟨n, iv.customer_id, iv.amount, iv.status, iv.date⟩ :: invoiceRowsFrom cs (n + 1) rest
    else invoiceRowsFrom cs n rest

/-- The caller-supplied columns of a stored invoice row (everything except
the generated id). -/
def invoiceRowData (r : InvoiceRow) : String × Int × String × String :=
  (r.customer_id, r.amount, r.status, r.date)

/-- The columns of a placeholder invoice. -/
def invoiceSeedData (iv : InvoiceSeed) : String × Int × String × String :=
  (iv.customer_id, iv.amount, iv.status, iv.date)

/-- Every password stored in the users table is the cost-10 hash of some
placeholder user's plaintext password. -/
def hashedTable (E : Env) (D : Dataset) (db : DB) : Prop :=
  ∀ r ∈ db.usersTbl.getD [], ∃ u ∈ D.users, r.password = E.hash u.password 10

theorem insertUser_cases {E : Env} {u : UserSeed} {db db' : DB}
    (h : insertUser E u db = .ok db') :
    db' = db ∨ ∃ rows, db.usersTbl = some rows ∧
      db' = { db with usersTbl := some (rows ++ [⟨u.id, u.name, u.email, E.hash u.password 10⟩]) } := by
  unfold insertUser at h
  repeat' split at h
  all_goals simp only [Except.ok.injEq, reduceCtorEq] at h
  · exact Or.inl h.symm
  · exact Or.inr ⟨_, by assumption, h.symm⟩

theorem insertCustomer_cases {E : Env} {c : CustomerSeed} {db db' : DB}
    (h : insertCustomer E c db = .ok db') :
    db' = db ∨ ∃ rows, db.customersTbl = some rows ∧
      db' = { db with customersTbl := some (rows ++ [custRow c]) } := by
  unfold insertCustomer at h
  repeat' split at h
  all_goals simp only [Except.ok.injEq, reduceCtorEq] at h
  · exact Or.inl h.symm
  · exact Or.inr ⟨_, by assumption, h.symm⟩

theorem insertInvoice_cases {E : Env} {iv : InvoiceSeed} {db db' : DB}
    (h : insertInvoice E iv db = .ok db') :
    ∃ rows, db.invoicesTbl = some rows ∧
      db' = { db with invoicesTbl := some (rows ++ [⟨db.nextId, iv.customer_id, iv.amount, iv.status, iv.date⟩]), nextId := db.nextId + 1 } := by
  unfold insertInvoice at h
  repeat' split at h
  all_goals simp only [Except.ok.injEq, reduceCtorEq] at h
  exact ⟨_, by assumption, h.symm⟩

theorem insertRevenue_cases {E : Env} {r : RevenueSeed} {db db' : DB}
    (h : insertRevenue E r db = .ok db') :
    db' = db ∨ ∃ rows, db.revenueTbl = some rows ∧
      db' = { db with revenueTbl := some (rows ++ [⟨r.month, r.revenue⟩]) } := by
  unfold insertRevenue at h
  repeat' split at h
  all_goals simp only [Except.ok.injEq, reduceCtorEq] at h
  · exact Or.inl h.symm
  · exact Or.inr ⟨_, by assumption, h.symm⟩

theorem seedUserRow_cases {E : Env} {u : UserSeed} {db db' : DB}
    (h : seedUserRow E db u = .ok db') :
    db' = db ∨ insertUser E u db = .ok db' := by
  unfold seedUserRow at h
  split at h
  · cases hi : insertUser E u db with
    | ok dbi => simp only [hi] at h; exact Or.inr h
    | error e => simp only [hi] at h; cases h; exact Or.inl rfl
  · exact absurd h (by simp)

theorem seedUserRow_ok {E : Env} {u : UserSeed} (db : DB)
    (hh : E.hashOk u.password = true) :
    ∃ db', seedUserRow E db u = .ok db' := by
  unfold seedUserRow
  rw [if_pos hh]
  cases hi : insertUser E u db with
  | ok dbi => exact ⟨dbi, by simp [hi]⟩
  | error e => exact ⟨db, by simp [hi]⟩

theorem seedUserRow_fail {E : Env} {u : UserSeed} (db : DB)
    (hh : E.hashOk u.password = false) :
    seedUserRow E db u = .error "bcrypt hash failed" := by
  unfold seedUserRow
  rw [if_neg (by simp [hh])]

theorem seedCustomerRow_cases {E : Env} {c : CustomerSeed} {db db' : DB}
    (h : seedCustomerRow E db c = .ok db') :
    db' = db ∨ insertCustomer E c db = .ok db' := by
  unfold seedCustomerRow at h
  cases hi : insertCustomer E c db with
  | ok dbi => simp only [hi] at h; exact Or.inr h
  | error e => simp only [hi] at h; cases h; exact Or.inl rfl

theorem seedCustomerRow_total (E : Env) (db : DB) (c : CustomerSeed) :
    ∃ db', seedCustomerRow E db c = .ok db' := by
  unfold seedCustomerRow
  cases hi : insertCustomer E c db with
  | ok dbi => exact ⟨dbi, by simp [hi]⟩
  | error e => exact ⟨db, by simp [hi]⟩

theorem seedInvoiceRow_cases {E : Env} {iv : InvoiceSeed} {db db' : DB}
    (h : seedInvoiceRow E db iv = .ok db') :
    db' = db ∨ insertInvoice E iv db = .ok db' := by
  unfold seedInvoiceRow at h
  cases hi : insertInvoice E iv db with
  | ok dbi => simp only [hi] at h; exact Or.inr h
  | error e => simp only [hi] at h; cases h; exact Or.inl rfl

theorem seedInvoiceRow_total (E : Env) (db : DB) (iv : InvoiceSeed) :
    ∃ db', seedInvoiceRow E db iv = .ok db' := by
  unfold seedInvoiceRow
  cases hi : insertInvoice E iv db with
  | ok dbi => exact ⟨dbi, by simp [hi]⟩
  | error e => exact ⟨db, by simp [hi]⟩

theorem seedRevenueRow_cases {E : Env} {r : RevenueSeed} {db db' : DB}
    (h : seedRevenueRow E db r = .ok db') :
    db' = db ∨ insertRevenue E r db = .ok db' := by
  unfold seedRevenueRow at h
  cases hi : insertRevenue E r db with
  | ok dbi => simp only [hi] at h; exact Or.inr h
  | error e => simp only [hi] at h; cases h; exact Or.inl rfl

theorem seedRevenueRow_total (E : Env) (db : DB) (r : RevenueSeed) :
    ∃ db', seedRevenueRow E db r = .ok db' := by
  unfold seedRevenueRow
  cases hi : insertRevenue E r db with
  | ok dbi => exact ⟨dbi, by simp [hi]⟩
  | error e => exact ⟨db, by simp [hi]⟩

theorem seedRows_total {α : Type} (f : DB → α → Except String DB)
    (hf : ∀ db a, ∃ db', f db a = .ok db') :
    ∀ (L : List α) (db : DB), ∃ db', seedRows f db L = .ok db' := by
  intro L
  induction L with
  | nil => intro db; exact ⟨db, rfl⟩
  | cons a rest ih =>
    intro db
    obtain ⟨db1, h1⟩ := hf db a
    obtain ⟨db2, h2⟩ := ih db1
    exact ⟨db2, by simp [seedRows, h1, h2]⟩

theorem seedRows_preserve {α : Type} (f : DB → α → Except String DB) (P : DB → Prop) :
    ∀ (L : List α) (db db' : DB),
      (∀ d a d', a ∈ L → f d a = .ok d' → P d → P d') →
      seedRows f db L = .ok db' → P db → P db' := by
  intro L
  induction L with
  | nil =>
    intro db db' _ h hp
    simp only [seedRows, Except.ok.injEq] at h
    exact h ▸ hp
  | cons a rest ih =>
    intro db db' hf h hp
    simp only [seedRows] at h
    cases h1 : f db a with
    | ok d1 =>
      simp only [h1] at h
      exact ih d1 db' (fun d a' d' ha => hf d a' d' (List.mem_cons_of_mem _ ha)) h
        (hf db a d1 (List.mem_cons_self a rest) h1 hp)
    | error e => simp only [h1] at h; exact absurd h (by simp)

theorem seedRows_users_ok {E : Env} :
    ∀ (L : List UserSeed) (db : DB), (∀ u ∈ L, E.hashOk u.password = true) →
      ∃ db', seedRows (seedUserRow E) db L = .ok db' := by
  intro L
  induction L with
  | nil => intro db _; exact ⟨db, rfl⟩
  | cons u rest ih =>
    intro db hh
    obtain ⟨db1, h1⟩ := seedUserRow_ok db (hh u (List.mem_cons_self u rest))
    obtain ⟨db2, h2⟩ := ih db1 (fun u' hu' => hh u' (List.mem_cons_of_mem _ hu'))
    exact ⟨db2, by simp [seedRows, h1, h2]⟩

theorem seedRows_users_fail {E : Env} :
    ∀ (L : List UserSeed) (db : DB), (∃ u ∈ L, E.hashOk u.password = false) →
      ∃ e, seedRows (seedUserRow E) db L = .error e := by
  intro L
  induction L with
  | nil => intro db h; simp at h
  | cons u rest ih =>
    intro db ⟨u0, hmem, hfail⟩
    cases hu : E.hashOk u.password with
    | false => exact ⟨"bcrypt hash failed", by simp [seedRows, seedUserRow_fail db hu]⟩
    | true =>
      have hrest : u0 ∈ rest := by
        rcases List.mem_cons.mp hmem with h | h
        · exact absurd (h ▸ hfail) (by simp [hu])
        · exact h
      obtain ⟨db1, h1⟩ := seedUserRow_ok db hu
      obtain ⟨e, he⟩ := ih db1 ⟨u0, hrest, hfail⟩
      exact ⟨e, by simp [seedRows, h1, he]⟩

theorem createUsersTable_ok {E : Env} (db : DB) (h : E.ddlUsersOk = true) :
    ∃ db', createUsersTable E db = .ok db' ∧ db'.usersTbl.isSome = true := by
  unfold createUsersTable
  rw [if_pos h]
  cases ht : db.usersTbl with
  | some rows => exact ⟨db, rfl, by simp [ht]⟩
  | none => exact ⟨_, rfl, by simp⟩

theorem createCustomersTable_ok {E : Env} (db : DB) (h : E.ddlCustomersOk = true) :
    ∃ db', createCustomersTable E db = .ok db' ∧ db'.customersTbl.isSome = true := by
  unfold createCustomersTable
  rw [if_pos h]
  cases ht : db.customersTbl with
  | some rows => exact ⟨db, rfl, by simp [ht]⟩
  | none => exact ⟨_, rfl, by simp⟩

theorem createInvoicesTable_ok {E : Env} (db : DB) (h : E.ddlInvoicesOk = true)
    (hcs : db.customersTbl.isSome = true) :
    ∃ db', createInvoicesTable E db = .ok db' := by
  unfold createInvoicesTable
  rw [if_pos h]
  cases ht : db.invoicesTbl with
  | some rows => exact ⟨db, rfl⟩
  | none =>
    cases hc : db.customersTbl with
    | some cs => exact ⟨_, rfl⟩
    | none => rw [hc] at hcs; simp at hcs

theorem createRevenueTable_ok {E : Env} (db : DB) (h : E.ddlRevenueOk = true) :
    ∃ db', createRevenueTable E db = .ok db' := by
  unfold createRevenueTable
  rw [if_pos h]
  cases ht : db.revenueTbl with
  | some rows => exact ⟨db, rfl⟩
  | none => exact ⟨_, rfl⟩

theorem seedUsers_ok {E : Env} {D : Dataset} (db : DB) (hddl : E.ddlUsersOk = true)
    (hhash : ∀ u ∈ D.users, E.hashOk u.password = true) :
    ∃ db', seedUsers E D db = .ok db' := by
  obtain ⟨db1, h1, _⟩ := createUsersTable_ok (E := E) db hddl
  obtain ⟨db2, h2⟩ := seedRows_users_ok (E := E) D.users db1 hhash
  exact ⟨db2, by unfold seedUsers; rw [h1]; exact h2⟩

theorem seedUsers_fail {E : Env} {D : Dataset} (db : DB) (hddl : E.ddlUsersOk = true)
    (hfail : ∃ u ∈ D.users, E.hashOk u.password = false) :
    ∃ e, seedUsers E D db = .error e := by
  obtain ⟨db1, h1, _⟩ := createUsersTable_ok (E := E) db hddl
  obtain ⟨e, h2⟩ := seedRows_users_fail (E := E) D.users db1 hfail
  exact ⟨e, by unfold seedUsers; rw [h1]; exact h2⟩

theorem seedCustomers_ok {E : Env} {D : Dataset} (db : DB) (hddl : E.ddlCustomersOk = true) :
    ∃ db', seedCustomers E D db = .ok db' ∧ db'.customersTbl.isSome = true := by
  obtain ⟨db1, h1, hsome⟩ := createCustomersTable_ok (E := E) db hddl
  obtain ⟨db2, h2⟩ := seedRows_total (seedCustomerRow E) (seedCustomerRow_total E) D.customers db1
  refine ⟨db2, by unfold seedCustomers; rw [h1]; exact h2, ?_⟩
  refine seedRows_preserve (seedCustomerRow E) (fun d => d.customersTbl.isSome = true)
    D.customers db1 db2 ?_ h2 hsome
  intro d c d' _ hrow hp
  rcases seedCustomerRow_cases hrow with rfl | hins
  · exact hp
  · rcases insertCustomer_cases hins with rfl | ⟨rows, _, rfl⟩
    · exact hp
    · simp

theorem seedInvoices_ok {E : Env} {D : Dataset} (db : DB) (hddl : E.ddlInvoicesOk = true)
    (hcs : db.customersTbl.isSome = true) :
    ∃ db', seedInvoices E D db = .ok db' := by
  obtain ⟨db1, h1⟩ := createInvoicesTable_ok (E := E) db hddl hcs
  obtain ⟨db2, h2⟩ := seedRows_total (seedInvoiceRow E) (seedInvoiceRow_total E) D.invoices db1
  exact ⟨db2, by unfold seedInvoices; rw [h1]; exact h2⟩

theorem seedRevenue_ok {E : Env} {D : Dataset} (db : DB) (hddl : E.ddlRevenueOk = true) :
    ∃ db', seedRevenue E D db = .ok db' := by
  obtain ⟨db1, h1⟩ := createRevenueTable_ok (E := E) db hddl
  obtain ⟨db2, h2⟩ := seedRows_total (seedRevenueRow E) (seedRevenueRow_total E) D.revenue db1
  exact ⟨db2, by unfold seedRevenue; rw [h1]; exact h2⟩

theorem seedTx_build {E : Env} {D : Dataset} {db db1 db2 db3 db4 db5 : DB}
    (h1 : createExtensions E db = .ok db1)
    (h2 : seedUsers E D db1 = .ok db2)
    (h3 : seedCustomers E D db2 = .ok db3)
    (h4 : seedInvoices E D db3 = .ok db4)
    (h5 : seedRevenue E D db4 = .ok db5) :
    seedTx E D db = (.ok db5, seedEventOrder.dropLast) := by
  simp [seedTx, andThenT, runStepT, runStep, h1, h2, h3, h4, h5, seedEventOrder]

theorem seedTx_decomp {E : Env} {D : Dataset} {db db' : DB} {tr : List Ev}
    (h : seedTx E D db = (.ok db', tr)) :
    ∃ db1 db2 db3 db4,
      createExtensions E db = .ok db1 ∧
      seedUsers E D db1 = .ok db2 ∧
      seedCustomers E D db2 = .ok db3 ∧
      seedInvoices E D db3 = .ok db4 ∧
      seedRevenue E D db4 = .ok db' ∧
      tr = seedEventOrder.dropLast := by
  unfold seedTx at h
  cases h1 : runStep E D .ext db with
  | error e => simp [runStepT, andThenT, h1] at h
  | ok db1 =>
    simp only [runStepT, h1, andThenT] at h
    cases h2 : runStep E D .users db1 with
    | error e => simp [h2] at h
    | ok db2 =>
      simp only [h2] at h
      cases h3 : runStep E D .customers db2 with
      | error e => simp [h3] at h
      | ok db3 =>
        simp only [h3] at h
        cases h4 : runStep E D .invoices db3 with
        | error e => simp [h4] at h
        | ok db4 =>
          simp only [h4] at h
          cases h5 : runStep E D .revenue db4 with
          | error e => simp [h5] at h
          | ok db5 =>
            simp only [h5, Prod.mk.injEq, Except.ok.injEq] at h
            exact ⟨db1, db2, db3, db4, h1, h2, h3, h4, h.1 ▸ h5, by rw [← h.2]; rfl⟩

theorem seedTx_error_state {E : Env} {D : Dataset} {db : DB} {e : String} {tr : List Ev}
    (h : seedTx E D db = (.error e, tr)) :
    seedGET E D db = (⟨500, "Error seeding database", []⟩, db, tr ++ [Ev.rollbackTx]) := by
  unfold seedGET
  rw [h]

theorem seedUsers_frame {E : Env} {D : Dataset} {db db' : DB}
    (h : seedUsers E D db = .ok db') :
    db'.ext = db.ext ∧ db'.customersTbl = db.customersTbl ∧
      db'.invoicesTbl = db.invoicesTbl ∧ db'.revenueTbl = db.revenueTbl ∧
      db'.nextId = db.nextId := by
  unfold seedUsers at h
  cases hc : createUsersTable E db with
  | error e => simp only [hc] at h; exact absurd h (by simp)
  | ok db0 =>
    simp only [hc] at h
    have h0 : db0.ext = db.ext ∧ db0.customersTbl = db.customersTbl ∧
        db0.invoicesTbl = db.invoicesTbl ∧ db0.revenueTbl = db.revenueTbl ∧
        db0.nextId = db.nextId := by
      unfold createUsersTable at hc
      repeat' split at hc
      all_goals simp only [Except.ok.injEq, reduceCtorEq] at hc
      all_goals rw [← hc]
      all_goals exact ⟨rfl, rfl, rfl, rfl, rfl⟩
    refine ?_
    have hrows := seedRows_preserve (seedUserRow E)
      (fun d => d.ext = db.ext ∧ d.customersTbl = db.customersTbl ∧
        d.invoicesTbl = db.invoicesTbl ∧ d.revenueTbl = db.revenueTbl ∧
        d.nextId = db.nextId) D.users db0 db' ?_ h h0
    · exact hrows
    · intro d u d' _ hrow hp
      rcases seedUserRow_cases hrow with rfl | hins
      · exact hp
      · rcases insertUser_cases hins with rfl | ⟨rows, _, rfl⟩
        · exact hp
        · exact hp

theorem seedCustomers_frame {E : Env} {D : Dataset} {db db' : DB}
    (h : seedCustomers E D db = .ok db') :
    db'.ext = db.ext ∧ db'.usersTbl = db.usersTbl ∧
      db'.invoicesTbl = db.invoicesTbl ∧ db'.revenueTbl = db.revenueTbl ∧
      db'.nextId = db.nextId := by
  unfold seedCustomers at h
  cases hc : createCustomersTable E db with
  | error e => simp only [hc] at h; exact absurd h (by simp)
  | ok db0 =>
    simp only [hc] at h
    have h0 : db0.ext = db.ext ∧ db0.usersTbl = db.usersTbl ∧
        db0.invoicesTbl = db.invoicesTbl ∧ db0.revenueTbl = db.revenueTbl ∧
        db0.nextId = db.nextId := by
      unfold createCustomersTable at hc
      repeat' split at hc
      all_goals simp only [Except.ok.injEq, reduceCtorEq] at hc
      all_goals rw [← hc]
      all_goals exact ⟨rfl, rfl, rfl, rfl, rfl⟩
    have hrows := seedRows_preserve (seedCustomerRow E)
      (fun d => d.ext = db.ext ∧ d.usersTbl = db.usersTbl ∧
        d.invoicesTbl = db.invoicesTbl ∧ d.revenueTbl = db.revenueTbl ∧
        d.nextId = db.nextId) D.customers db0 db' ?_ h h0
    · exact hrows
    · intro d c d' _ hrow hp
      rcases seedCustomerRow_cases hrow with rfl | hins
      · exact hp
      · rcases insertCustomer_cases hins with rfl | ⟨rows, _, rfl⟩
        · exact hp
        · exact hp

theorem seedInvoices_frame {E : Env} {D : Dataset} {db db' : DB}
    (h : seedInvoices E D db = .ok db') :
    db'.ext = db.ext ∧ db'.usersTbl = db.usersTbl ∧
      db'.customersTbl = db.customersTbl ∧ db'.revenueTbl = db.revenueTbl := by
  unfold seedInvoices at h
  cases hc : createInvoicesTable E db with
  | error e => simp only [hc] at h; exact absurd h (by simp)
  | ok db0 =>
    simp only [hc] at h
    have h0 : db0.ext = db.ext ∧ db0.usersTbl = db.usersTbl ∧
        db0.customersTbl = db.customersTbl ∧ db0.revenueTbl = db.revenueTbl := by
      unfold createInvoicesTable at hc
      repeat' split at hc
      all_goals simp only [Except.ok.injEq, reduceCtorEq] at hc
      all_goals rw [← hc]
      all_goals exact ⟨rfl, rfl, rfl, rfl⟩
    have hrows := seedRows_preserve (seedInvoiceRow E)
      (fun d => d.ext = db.ext ∧ d.usersTbl = db.usersTbl ∧
        d.customersTbl = db.customersTbl ∧ d.revenueTbl = db.revenueTbl)
      D.invoices db0 db' ?_ h h0
    · exact hrows
    · intro d iv d' _ hrow hp
      rcases seedInvoiceRow_cases hrow with rfl | hins
      · exact hp
      · obtain ⟨rows, _, rfl⟩ := insertInvoice_cases hins
        exact hp

theorem seedRevenue_frame {E : Env} {D : Dataset} {db db' : DB}
    (h : seedRevenue E D db = .ok db') :
    db'.ext = db.ext ∧ db'.usersTbl = db.usersTbl ∧
      db'.customersTbl = db.customersTbl ∧ db'.invoicesTbl = db.invoicesTbl ∧
      db'.nextId = db.nextId := by
  unfold seedRevenue at h
  cases hc : createRevenueTable E db with
  | error e => simp only [hc] at h; exact absurd h (by simp)
  | ok db0 =>
    simp only [hc] at h
    have h0 : db0.ext = db.ext ∧ db0.usersTbl = db.usersTbl ∧
        db0.customersTbl = db.customersTbl ∧ db0.invoicesTbl = db.invoicesTbl ∧
        db0.nextId = db.nextId := by
      unfold createRevenueTable at hc
      repeat' split at hc
      all_goals simp only [Except.ok.injEq, reduceCtorEq] at hc
      all_goals rw [← hc]
      all_goals exact ⟨rfl, rfl, rfl, rfl, rfl⟩
    have hrows := seedRows_preserve (seedRevenueRow E)
      (fun d => d.ext = db.ext ∧ d.usersTbl = db.usersTbl ∧
        d.customersTbl = db.customersTbl ∧ d.invoicesTbl = db.invoicesTbl ∧
        d.nextId = db.nextId) D.revenue db0 db' ?_ h h0
    · exact hrows
    · intro d r d' _ hrow hp
      rcases seedRevenueRow_cases hrow with rfl | hins
      · exact hp
      · rcases insertRevenue_cases hins with rfl | ⟨rows, _, rfl⟩
        · exact hp
        · exact hp

theorem hashedTable_of_usersTbl_eq {E : Env} {D : Dataset} {d d' : DB}
    (h : d'.usersTbl = d.usersTbl) (hp : hashedTable E D d) : hashedTable E D d' := by
  intro r hr
  exact hp r (by rw [← h]; exact hr)

theorem seedUsers_hashed {E : Env} {D : Dataset} {db db' : DB}
    (h : seedUsers E D db = .ok db') (hp : hashedTable E D db) :
    hashedTable E D db' := by
  unfold seedUsers at h
  cases hc : createUsersTable E db with
  | error e => simp only [hc] at h; exact absurd h (by simp)
  | ok db0 =>
    simp only [hc] at h
    have p0 : hashedTable E D db0 := by
      unfold createUsersTable at hc
      repeat' split at hc
      all_goals simp only [Except.ok.injEq, reduceCtorEq] at hc
      · exact hc ▸ hp
      · intro r hr
        rw [← hc] at hr
        simp at hr
    refine seedRows_preserve (seedUserRow E) (hashedTable E D) D.users db0 db' ?_ h p0
    intro d u d' hu hrow hp'
    rcases seedUserRow_cases hrow with rfl | hins
    · exact hp'
    · rcases insertUser_cases hins with rfl | ⟨rows, hrows, rfl⟩
      · exact hp'
      · intro r hr
        have hr' : r ∈ rows ++ [(⟨u.id, u.name, u.email, E.hash u.password 10⟩ : UserRow)] := hr
        rcases List.mem_append.mp hr' with hmem | hmem
        · exact hp' r (by rw [hrows]; exact hmem)
        · have hre : r = ⟨u.id, u.name, u.email, E.hash u.password 10⟩ := by simpa using hmem
          exact ⟨u, hu, by rw [hre]⟩

theorem seedTx_hashed {E : Env} {D : Dataset} {db db' : DB} {tr : List Ev}
    (h : seedTx E D db = (.ok db', tr)) (hp : hashedTable E D db) :
    hashedTable E D db' := by
  obtain ⟨db1, db2, db3, db4, h1, h2, h3, h4, h5, _⟩ := seedTx_decomp h
  have p1 : hashedTable E D db1 := by
    unfold createExtensions at h1
    split at h1
    · simp only [Except.ok.injEq] at h1
      exact h1 ▸ hp
    · exact absurd h1 (by simp)
  have p2 : hashedTable E D db2 := seedUsers_hashed h2 p1
  have p3 : hashedTable E D db3 := hashedTable_of_usersTbl_eq (seedCustomers_frame h3).2.1 p2
  have p4 : hashedTable E D db4 := hashedTable_of_usersTbl_eq (seedInvoices_frame h4).2.1 p3
  exact hashedTable_of_usersTbl_eq (seedRevenue_frame h5).2.1 p4

theorem seedRows_customers_append {E : Env} :
    ∀ (L : List CustomerSeed) (rs : List CustomerRow) (db : DB),
      db.customersTbl = some rs →
      (∀ c ∈ L, E.customerInsertOk c = true) →
      (∀ c ∈ L, ∀ r ∈ rs, r.id ≠ c.id ∧ r.email ≠ c.email) →
      (L.map CustomerSeed.id).Nodup →
      (L.map CustomerSeed.email).Nodup →
      ∃ db', seedRows (seedCustomerRow E) db L = .ok db' ∧
        db'.customersTbl = some (rs ++ L.map custRow) ∧
        db'.ext = db.ext ∧ db'.usersTbl = db.usersTbl ∧
        db'.invoicesTbl = db.invoicesTbl ∧ db'.revenueTbl = db.revenueTbl ∧
        db'.nextId = db.nextId := by
  intro L
  induction L with
  | nil =>
    intro rs db htbl _ _ _ _
    exact ⟨db, rfl, by rw [htbl]; simp, rfl, rfl, rfl, rfl, rfl⟩
  | cons c L ih =>
    intro rs db htbl hok hdisj hids hemails
    have hid : ¬ (rs.any (fun r => r.id == c.id) = true) := by
      intro hx
      obtain ⟨r, hr, hbeq⟩ := List.any_eq_true.mp hx
      exact (hdisj c (List.mem_cons_self c L) r hr).1 (beq_iff_eq.mp hbeq)
    have hemail : ¬ (rs.any (fun r => r.email == c.email) = true) := by
      intro hx
      obtain ⟨r, hr, hbeq⟩ := List.any_eq_true.mp hx
      exact (hdisj c (List.mem_cons_self c L) r hr).2 (beq_iff_eq.mp hbeq)
    have hins : insertCustomer E c db = .ok { db with customersTbl := some (rs ++ [custRow c]) } := by
      unfold insertCustomer
      simp only [htbl]
      rw [if_pos (hok c (List.mem_cons_self c L)), if_neg hid, if_neg hemail]
      rfl
    have hrow : seedCustomerRow E db c = .ok { db with customersTbl := some (rs ++ [custRow c]) } := by
      unfold seedCustomerRow
      rw [hins]
    have hnotid : c.id ∉ L.map CustomerSeed.id := (List.nodup_cons.mp hids).1
    have hnotemail : c.email ∉ L.map CustomerSeed.email := (List.nodup_cons.mp hemails).1
    have hdisj1 : ∀ c' ∈ L, ∀ r ∈ rs ++ [custRow c], r.id ≠ c'.id ∧ r.email ≠ c'.email := by
      intro c' hc' r hr
      rcases List.mem_append.mp hr with hr | hr
      · exact hdisj c' (List.mem_cons_of_mem _ hc') r hr
      · have hre : r = custRow c := by simpa using hr
        subst hre
        constructor
        · intro he
          exact hnotid (by rw [show c.id = c'.id from he]; exact List.mem_map_of_mem CustomerSeed.id hc')
        · intro he
          exact hnotemail (by rw [show c.email = c'.email from he]; exact List.mem_map_of_mem CustomerSeed.email hc')
    obtain ⟨db2, hs2, ht2, he2, hu2, hi2, hr2, hn2⟩ :=
      ih (rs ++ [custRow c]) { db with customersTbl := some (rs ++ [custRow c]) } rfl
        (fun c' hc' => hok c' (List.mem_cons_of_mem _ hc')) hdisj1
        (List.nodup_cons.mp hids).2 (List.nodup_cons.mp hemails).2
    refine ⟨db2, by simp [seedRows, hrow, hs2], ?_, he2, hu2, hi2, hr2, hn2⟩
    rw [ht2, List.append_assoc]
    rfl

theorem any_map_custRow (cl : List CustomerSeed) (x : String) :
    (cl.map custRow).any (fun c => c.id == x) = cl.any (fun c => c.id == x) := by
  induction cl with
  | nil => rfl
  | cons c t ih => simp only [List.map_cons, List.any_cons, ih]; rfl

theorem seedRows_invoices_append {E : Env} {cs : List CustomerRow} :
    ∀ (L : List InvoiceSeed) (rs : List InvoiceRow) (db : DB),
      db.invoicesTbl = some rs →
      db.customersTbl = some cs →
      (∀ iv ∈ L, E.invoiceInsertOk iv = true) →
      ∃ db', seedRows (seedInvoiceRow E) db L = .ok db' ∧
        db'.invoicesTbl = some (rs ++ invoiceRowsFrom cs db.nextId L) ∧
        db'.ext = db.ext ∧ db'.usersTbl = db.usersTbl ∧
        db'.customersTbl = db.customersTbl ∧ db'.revenueTbl = db.revenueTbl := by
  intro L
  induction L with
  | nil =>
    intro rs db htbl hcs _
    exact ⟨db, rfl, by rw [htbl]; simp [invoiceRowsFrom], rfl, rfl, rfl, rfl⟩
  | cons iv L ih =>
    intro rs db htbl hcs hok
    cases hfk : cs.any (fun c => c.id == iv.customer_id) with
    | true =>
      have hins : insertInvoice E iv db = .ok { db with invoicesTbl := some (rs ++ [⟨db.nextId, iv.customer_id, iv.amount, iv.status, iv.date⟩]), nextId := db.nextId + 1 } := by
        unfold insertInvoice
        simp only [htbl]
        rw [if_pos (hok iv (List.mem_cons_self iv L))]
        simp only [hcs, Option.getD_some]
        rw [if_pos hfk]
      have hrow : seedInvoiceRow E db iv = .ok { db with invoicesTbl := some (rs ++ [⟨db.nextId, iv.customer_id, iv.amount, iv.status, iv.date⟩]), nextId := db.nextId + 1 } := by
        unfold seedInvoiceRow
        rw [hins]
      obtain ⟨db2, hs2, ht2, he2, hu2, hc2, hr2⟩ :=
        ih (rs ++ [⟨db.nextId, iv.customer_id, iv.amount, iv.status, iv.date⟩])
          { db with invoicesTbl := some (rs ++ [⟨db.nextId, iv.customer_id, iv.amount, iv.status, iv.date⟩]), nextId := db.nextId + 1 }
          rfl hcs (fun iv' hiv' => hok iv' (List.mem_cons_of_mem _ hiv'))
      refine ⟨db2, by simp [seedRows, hrow, hs2], ?_, he2, hu2, hc2, hr2⟩
      rw [ht2]
      have hsim : invoiceRowsFrom cs db.nextId (iv :: L) =
          ⟨db.nextId, iv.customer_id, iv.amount, iv.status, iv.date⟩ :: invoiceRowsFrom cs (db.nextId + 1) L := by
        simp [invoiceRowsFrom, hfk]
      rw [hsim, List.append_assoc]
      rfl
    | false =>
      have hins : insertInvoice E iv db = .error "insert or update on table invoices violates foreign key constraint" := by
        unfold insertInvoice
        simp only [htbl]
        rw [if_pos (hok iv (List.mem_cons_self iv L))]
        simp only [hcs, Option.getD_some]
        rw [if_neg (by simp [hfk])]
      have hrow : seedInvoiceRow E db iv = .ok db := by
        unfold seedInvoiceRow
        rw [hins]
      obtain ⟨db2, hs2, ht2, he2, hu2, hc2, hr2⟩ :=
        ih rs db htbl hcs (fun iv' hiv' => hok iv' (List.mem_cons_of_mem _ hiv'))
      refine ⟨db2, by simp [seedRows, hrow, hs2], ?_, he2, hu2, hc2, hr2⟩
      rw [ht2]
      have hsim : invoiceRowsFrom cs db.nextId (iv :: L) = invoiceRowsFrom cs db.nextId L := by
        simp [invoiceRowsFrom, hfk]
      rw [hsim]

theorem invoiceRowsFrom_data (cs : List CustomerRow) :
    ∀ (n : Nat) (L : List InvoiceSeed),
      (invoiceRowsFrom cs n L).map invoiceRowData =
        (L.filter (fun iv => cs.any (fun c => c.id == iv.customer_id))).map invoiceSeedData := by
  intro n L
  induction L generalizing n with
  | nil => rfl
  | cons iv L ih =>
    cases hfk : cs.any (fun c => c.id == iv.customer_id) with
    | true => simp [invoiceRowsFrom, hfk, List.filter_cons, ih, invoiceRowData, invoiceSeedData]
    | false => simp [invoiceRowsFrom, hfk, List.filter_cons, ih]

theorem seedGET_ok_of_flags (E : Env) (D : Dataset) (db : DB)
    (hext : E.extOk = true) (hddlU : E.ddlUsersOk = true)
    (hddlC : E.ddlCustomersOk = true) (hddlI : E.ddlInvoicesOk = true)
    (hddlR : E.ddlRevenueOk = true)
    (hhash : ∀ u ∈ D.users, E.hashOk u.password = true) :
    (seedGET E D db).1.status = 200 ∧ (seedGET E D db).2.2 = seedEventOrder := by
  have h1 : createExtensions E db = .ok { db with ext := true } := by
    unfold createExtensions
    rw [if_pos hext]
  obtain ⟨db2, h2⟩ := seedUsers_ok (E := E) (D := D) _ hddlU hhash
  obtain ⟨db3, h3, hsome⟩ := seedCustomers_ok (E := E) (D := D) db2 hddlC
  obtain ⟨db4, h4⟩ := seedInvoices_ok (E := E) (D := D) db3 hddlI hsome
  obtain ⟨db5, h5⟩ := seedRevenue_ok (E := E) (D := D) db4 hddlR
  have htx := seedTx_build h1 h2 h3 h4 h5
  unfold seedGET
  rw [htx]
  refine ⟨rfl, ?_⟩
  show seedEventOrder.dropLast ++ [Ev.commitTx] = seedEventOrder
  decide

theorem flatMap_joinRow_filter (cs : List CustomerRow) :
    ∀ ivs : List InvoiceRow,
      ivs.flatMap (joinRow cs) =
        (ivs.filter (fun iv => iv.amount == 666)).flatMap (joinRow cs) := by
  intro ivs
  induction ivs with
  | nil => rfl
  | cons iv t ih =>
    cases ha : (iv.amount == 666) with
    | true => simp only [List.flatMap_cons, List.filter_cons, ha, if_pos, ih]
    | false =>
      have hnil : joinRow cs iv = [] := by
        unfold joinRow
        refine List.filterMap_eq_nil_iff.mpr ?_
        intro c _
        simp [ha]
      simp only [List.flatMap_cons, List.filter_cons, ha, hnil, List.nil_append, ih]
      rfl

theorem filterMap_guard_eq {α β : Type} (p : α → Bool) (f : α → β) :
    ∀ l : List α, l.filterMap (fun x => if p x then some (f x) else none) = (l.filter p).map f := by
  intro l
  induction l with
  | nil => rfl
  | cons x t ih =>
    cases hx : p x with
    | true => simp [List.filterMap_cons, List.filter_cons, hx, ih]
    | false => simp [List.filterMap_cons, List.filter_cons, hx, ih]

theorem joinRow_eq_map_filter {iv : InvoiceRow} (cs : List CustomerRow)
    (h : (iv.amount == 666) = true) :
    joinRow cs iv =
      (cs.filter (fun c => iv.customer_id == c.id)).map (fun c => ⟨iv.amount, c.name⟩) := by
  unfold joinRow
  have hfun : (fun c : CustomerRow => if iv.customer_id == c.id && iv.amount == 666 then some (⟨iv.amount, c.name⟩ : QRow) else none)
      = (fun c : CustomerRow => if iv.customer_id == c.id then some (⟨iv.amount, c.name⟩ : QRow) else none) := by
    funext c
    rw [h, Bool.and_true]
  rw [hfun]
  exact filterMap_guard_eq (fun c => iv.customer_id == c.id) (fun c : CustomerRow => (⟨iv.amount, c.name⟩ : QRow)) cs

/-- C1: whenever a DDL statement fails or any exception escapes a seeding
step (any escaped error of the transaction body), the seed GET handler
issues a rollback — the database reverts to its pre-invocation state, so no
row inserted earlier in the invocation persists — and responds with status
500 and the fixed plain message "Error seeding database", which does not
depend on (and hence does not echo) the underlying error. -/
theorem claim_C1 (E : Env) (D : Dataset) (db : DB) (e : String) (tr : List Ev)
    (h : seedTx E D db = (.error e, tr)) :
    (seedGET E D db).1.status = 500 ∧
    (seedGET E D db).1.body = "Error seeding database" ∧
    (seedGET E D db).2.1 = db ∧
    (seedGET E D db).2.2 = tr ++ [Ev.rollbackTx] := by
  rw [seedTx_error_state h]
  exact ⟨rfl, rfl, rfl, rfl⟩

/-- C1 witness: a failing create-extension DDL statement on the sample
dataset yields rollback, status 500 and the fixed message. -/
theorem claim_C1_witness :
    (seedGET { sampleEnv with extOk := false } sampleData DB.empty).1.status = 500 ∧
    (seedGET { sampleEnv with extOk := false } sampleData DB.empty).1.body = "Error seeding database" ∧
    (seedGET { sampleEnv with extOk := false } sampleData DB.empty).2.1 = DB.empty ∧
    (seedGET { sampleEnv with extOk := false } sampleData DB.empty).2.2 = [Ev.beginTx, Ev.stepStart .ext] ++ [Ev.rollbackTx] :=
  claim_C1 { sampleEnv with extOk := false } sampleData DB.empty "create extension failed"
    [Ev.beginTx, Ev.stepStart .ext] (by rfl)

/-- C5: every error during connection acquisition or query execution makes
the query GET handler respond with status 500 and the fixed JSON body
containing "Failed to fetch invoices"; the response is the same whatever
the error `e` was, so nothing from the original error appears in it. -/
theorem claim_C5 (E : QEnv) (db : DB) (e : String) (evs : List QEv)
    (h : listInvoices E db = (.error e, evs)) :
    queryGET E db = (⟨500, failedFetchBody, []⟩, evs) := by
  unfold queryGET
  rw [h]

/-- C5 witness: a failed connection acquisition yields the fixed 500 JSON
error response. -/
theorem claim_C5_witness :
    queryGET sampleQEnvNoConnect sampleQueryDB = (⟨500, failedFetchBody, []⟩, [QEv.connectFailed]) :=
  claim_C5 sampleQEnvNoConnect sampleQueryDB "failed to connect" [QEv.connectFailed] (by rfl)

/-- C6: on every invocation in which the connection is acquired, the
connection is released exactly once (on success, query error, or missing
relation alike); if acquisition fails, the handler returns status 500 and
no connection ever exists, so release is never invoked. -/
theorem claim_C6 (E : QEnv) (db : DB) :
    (E.connectOk = true → (listInvoices E db).2.count QEv.released = 1) ∧
    (E.connectOk = false →
      (listInvoices E db).2.count QEv.released = 0 ∧
      QEv.connected ∉ (listInvoices E db).2 ∧
      (queryGET E db).1.status = 500) := by
  constructor
  · intro hc
    unfold listInvoices
    rw [if_pos hc]
    cases hq : invoiceQuery db with
    | some rows =>
      cases hqq : E.queryOk with
      | true => rfl
      | false => rfl
    | none => rfl
  · intro hc
    have hl : listInvoices E db = (.error "failed to connect", [QEv.connectFailed]) := by
      unfold listInvoices
      rw [if_neg (by simp [hc])]
    refine ⟨by rw [hl]; decide, by rw [hl]; decide, ?_⟩
    unfold queryGET
    rw [hl]

/-- C6 witness: with a working connection the release count is one; with a
failed acquisition it is zero and the status is 500. -/
theorem claim_C6_witness :
    ((listInvoices sampleQEnvOk sampleQueryDB).2.count QEv.released = 1) ∧
    ((listInvoices sampleQEnvNoConnect sampleQueryDB).2.count QEv.released = 0 ∧
      QEv.connected ∉ (listInvoices sampleQEnvNoConnect sampleQueryDB).2 ∧
      (queryGET sampleQEnvNoConnect sampleQueryDB).1.status = 500) :=
  ⟨(claim_C6 sampleQEnvOk sampleQueryDB).1 (by rfl),
   (claim_C6 sampleQEnvNoConnect sampleQueryDB).2 (by rfl)⟩

/-- C7: on every seed invocation that reaches commit, the recorded event
trace is exactly: transaction begin, then the extension, users, customers,
invoices and revenue steps — each step starting only after the previous
step's settle barrier completed — then commit; in particular the customers
step completes strictly before the invoices step starts. -/
theorem claim_C7 (E : Env) (D : Dataset) (db db' : DB) (tr : List Ev)
    (h : seedTx E D db = (.ok db', tr)) :
    (seedGET E D db).2.2 = seedEventOrder ∧
    seedEventOrder.indexOf (Ev.stepEnd .customers) < seedEventOrder.indexOf (Ev.stepStart .invoices) := by
  obtain ⟨_, _, _, _, _, _, _, _, _, htr⟩ := seedTx_decomp h
  refine ⟨?_, by decide⟩
  unfold seedGET
  rw [h, htr]
  show seedEventOrder.dropLast ++ [Ev.commitTx] = seedEventOrder
  decide

/-- C7 witness: the sample seed run records the canonical event order. -/
theorem claim_C7_witness :
    (seedGET sampleEnv sampleData DB.empty).2.2 = seedEventOrder ∧
    seedEventOrder.indexOf (Ev.stepEnd .customers) < seedEventOrder.indexOf (Ev.stepStart .invoices) :=
  claim_C7 sampleEnv sampleData DB.empty _ _ (by rfl)

/-- C9 counterexample: on a successful invocation the handler of
`app/query/route.ts` passes no headers option to `new Response`, so the
response carries status 200 and an empty header list — no JSON content type
is declared, contrary to the claim. -/
theorem claim_C9_counterexample :
    (queryGET sampleQEnvOk sampleQueryDB).1.status = 200 ∧
    (queryGET sampleQEnvOk sampleQueryDB).1.headers = [] ∧
    ¬ (("Content-Type", "application/json") ∈ (queryGET sampleQEnvOk sampleQueryDB).1.headers) := by
  decide

/-- C9 (amended): on every successful invocation the response has status
200 and its body is the JSON-encoded array of the result rows (possibly
empty), but the handler sets no headers at all, so no JSON content type is
declared. -/
theorem claim_C9_amended (E : QEnv) (db : DB) (rows : List QRow) (evs : List QEv)
    (h : listInvoices E db = (.ok rows, evs)) :
    (queryGET E db).1.status = 200 ∧
    (queryGET E db).1.body = jsonOfRows rows ∧
    (queryGET E db).1.headers = [] := by
  unfold queryGET
  rw [h]
  exact ⟨rfl, rfl, rfl⟩

/-- C9 witness: a successful invocation over empty tables yields status
200, the JSON encoding of the empty row array, and no headers. -/
theorem claim_C9_witness :
    (queryGET sampleQEnvOk sampleQueryDB2).1.status = 200 ∧
    (queryGET sampleQEnvOk sampleQueryDB2).1.body = jsonOfRows [] ∧
    (queryGET sampleQEnvOk sampleQueryDB2).1.headers = [] :=
  claim_C9_amended sampleQEnvOk sampleQueryDB2 [] [QEv.connected, QEv.released] (by rfl)

/-- C4: whenever the database query succeeds, the query GET handler returns
status 200 with exactly the rows of invoices joined to customers on the
customer reference whose amount equals 666, projected to amount/name
records; and for data containing exactly one invoice with amount 666 whose
customer reference matches exactly one customer, named "Acme", that result
is the single row with amount 666 and name "Acme". -/
theorem claim_C4 :
    (∀ (E : QEnv) (db : DB) (ivs : List InvoiceRow) (cs : List CustomerRow),
      E.connectOk = true → E.queryOk = true →
      db.invoicesTbl = some ivs → db.customersTbl = some cs →
      queryGET E db = (⟨200, jsonOfRows (ivs.flatMap (joinRow cs)), []⟩, [QEv.connected, QEv.released]))
    ∧
    (∀ (ivs : List InvoiceRow) (cs : List CustomerRow) (iv0 : InvoiceRow) (c0 : CustomerRow),
      ivs.filter (fun iv => iv.amount == 666) = [iv0] →
      cs.filter (fun c => iv0.customer_id == c.id) = [c0] →
      c0.name = "Acme" →
      ivs.flatMap (joinRow cs) = [⟨666, "Acme"⟩]) := by
  constructor
  · intro E db ivs cs hc hq hiv hcs
    have hl : listInvoices E db = (.ok (ivs.flatMap (joinRow cs)), [QEv.connected, QEv.released]) := by
      unfold listInvoices invoiceQuery
      rw [if_pos hc]
      simp only [hiv, hcs]
      rw [if_pos hq]
    unfold queryGET
    rw [hl]
  · intro ivs cs iv0 c0 hiv hcfil hname
    have hmem : iv0 ∈ ivs.filter (fun iv => iv.amount == 666) := by
      rw [hiv]
      exact List.mem_singleton_self iv0
    have ha : (iv0.amount == 666) = true := (List.mem_filter.mp hmem).2
    rw [flatMap_joinRow_filter, hiv]
    have hone : List.flatMap [iv0] (joinRow cs) = joinRow cs iv0 := by
      simp
    rw [hone, joinRow_eq_map_filter cs ha, hcfil]
    simp only [List.map_cons, List.map_nil]
    rw [beq_iff_eq.mp ha, hname]

/-- C4 witness: on the sample seeded database (one invoice of amount 666
referencing the customer named Acme), the handler returns status 200 with
the single-row JSON body. -/
theorem claim_C4_witness :
    (queryGET sampleQEnvOk sampleQueryDB = (⟨200, "[\x7b\"amount\":666,\"name\":\"Acme\"\x7d]", []⟩, [QEv.connected, QEv.released])) ∧
    (([⟨0, "c1", 666, "paid", "2024-01-01"⟩, ⟨1, "c1", 250, "pending", "2024-01-02"⟩] : List InvoiceRow).flatMap
      (joinRow [⟨"c1", "Acme", "acme@example.com", "img1"⟩]) = [⟨666, "Acme"⟩]) := by
  constructor
  · have h := claim_C4.1 sampleQEnvOk sampleQueryDB
      [⟨0, "c1", 666, "paid", "2024-01-01"⟩, ⟨1, "c1", 250, "pending", "2024-01-02"⟩]
      [⟨"c1", "Acme", "acme@example.com", "img1"⟩] rfl rfl rfl rfl
    exact h.trans (by decide)
  · exact claim_C4.2 _ _ ⟨0, "c1", 666, "paid", "2024-01-01"⟩ ⟨"c1", "Acme", "acme@example.com", "img1"⟩
      (by decide) (by decide) rfl

/-- C8: after a seed invocation on a fresh database, assuming the one-way
hash never returns a placeholder plaintext, every row of the users table
has as password the cost-10 hash of some placeholder user's plaintext, and
no row's password equals any placeholder plaintext password. -/
theorem claim_C8 (E : Env) (D : Dataset)
    (hhash : ∀ (p : String), ∀ u ∈ D.users, E.hash p 10 ≠ u.password) :
    ∀ r ∈ ((seedGET E D DB.empty).2.1.usersTbl.getD []),
      (∃ u ∈ D.users, r.password = E.hash u.password 10) ∧
      (∀ u ∈ D.users, r.password ≠ u.password) := by
  have hempty : hashedTable E D DB.empty := by
    intro r hr
    simp [DB.empty] at hr
  intro r hr
  cases htx : seedTx E D DB.empty with
  | mk res tr =>
    cases res with
    | ok db' =>
      have hget : (seedGET E D DB.empty).2.1 = db' := by
        unfold seedGET
        rw [htx]
      rw [hget] at hr
      have hp := seedTx_hashed htx hempty r hr
      refine ⟨hp, ?_⟩
      intro u hu he
      obtain ⟨u0, hu0, he0⟩ := hp
      exact hhash u0.password u hu (he0.symm.trans he)
    | error e =>
      have hget : (seedGET E D DB.empty).2.1 = DB.empty := by
        unfold seedGET
        rw [htx]
      rw [hget] at hr
      simp [DB.empty] at hr

/-- C8 witness: with the sample hash oracle (which prefixes its input, so
its outputs are longer than the placeholder password), the user row seeded
from the sample dataset stores the hash and never the plaintext. -/
theorem claim_C8_witness :
    ((⟨"u1", "Alice", "alice@example.com", "hashed:pw1"⟩ : UserRow) ∈
        ((seedGET sampleEnv sampleData DB.empty).2.1.usersTbl.getD [])) ∧
    (∃ u ∈ sampleData.users,
        (⟨"u1", "Alice", "alice@example.com", "hashed:pw1"⟩ : UserRow).password = sampleEnv.hash u.password 10) ∧
    (∀ u ∈ sampleData.users,
        (⟨"u1", "Alice", "alice@example.com", "hashed:pw1"⟩ : UserRow).password ≠ u.password) := by
  refine ⟨by decide, ?_⟩
  refine claim_C8 sampleEnv sampleData ?_ _ (by decide)
  intro p u hu
  have hp : u.password = "pw1" := by
    have hu' : u = ⟨"u1", "Alice", "alice@example.com", "pw1"⟩ := by
      simpa [sampleData] using hu
    rw [hu']
  rw [hp]
  intro h
  have h' : "hashed:" ++ p = "pw1" := h
  have hlen := congrArg String.length h'
  rw [String.length_append] at hlen
  have e1 : ("hashed:" : String).length = 7 := by decide
  have e2 : ("pw1" : String).length = 3 := by decide
  rw [e1, e2] at hlen
  omega

/-- C10: a failing password hash in the users step escapes the per-row
try/catch (it is awaited outside it), aborts the whole seed invocation,
triggers the rollback path and yields status 500; whereas with all hashes
succeeding the invocation commits with status 200 no matter which row
inserts fail — an insert failure for the same row is isolated. -/
theorem claim_C10 :
    (∀ (E : Env) (D : Dataset) (db : DB) (u : UserSeed),
      u ∈ D.users → E.hashOk u.password = false →
      E.extOk = true → E.ddlUsersOk = true →
      (seedGET E D db).1.status = 500 ∧
      (seedGET E D db).2.1 = db ∧
      Ev.rollbackTx ∈ (seedGET E D db).2.2)
    ∧
    (∀ (E : Env) (D : Dataset) (db : DB),
      E.extOk = true → E.ddlUsersOk = true → E.ddlCustomersOk = true →
      E.ddlInvoicesOk = true → E.ddlRevenueOk = true →
      (∀ u ∈ D.users, E.hashOk u.password = true) →
      (seedGET E D db).1.status = 200) := by
  constructor
  · intro E D db u hu hfail hext hddlU
    have h1 : createExtensions E db = .ok { db with ext := true } := by
      unfold createExtensions
      rw [if_pos hext]
    obtain ⟨e, h2⟩ := seedUsers_fail (E := E) (D := D) { db with ext := true } hddlU ⟨u, hu, hfail⟩
    have htx : seedTx E D db = (.error e, [Ev.beginTx, Ev.stepStart .ext, Ev.stepEnd .ext, Ev.stepStart .users]) := by
      simp [seedTx, andThenT, runStepT, runStep, h1, h2]
    rw [seedTx_error_state htx]
    refine ⟨rfl, rfl, ?_⟩
    show Ev.rollbackTx ∈ [Ev.beginTx, Ev.stepStart .ext, Ev.stepEnd .ext, Ev.stepStart .users] ++ [Ev.rollbackTx]
    decide
  · intro E D db hext hddlU hddlC hddlI hddlR hhash
    exact (seedGET_ok_of_flags E D db hext hddlU hddlC hddlI hddlR hhash).1

/-- C10 witness: a failing hash on the sample dataset rolls the invocation
back with status 500, while failing inserts alone still commit with
status 200. -/
theorem claim_C10_witness :
    ((seedGET { sampleEnv with hashOk := fun _ => false } sampleData DB.empty).1.status = 500 ∧
     (seedGET { sampleEnv with hashOk := fun _ => false } sampleData DB.empty).2.1 = DB.empty ∧
     Ev.rollbackTx ∈ (seedGET { sampleEnv with hashOk := fun _ => false } sampleData DB.empty).2.2) ∧
    (seedGET { sampleEnv with userInsertOk := fun _ => false } sampleData DB.empty).1.status = 200 := by
  constructor
  · exact claim_C10.1 { sampleEnv with hashOk := fun _ => false } sampleData DB.empty
      ⟨"u1", "Alice", "alice@example.com", "pw1"⟩ (by decide) rfl rfl rfl
  · exact claim_C10.2 { sampleEnv with userInsertOk := fun _ => false } sampleData DB.empty
      rfl rfl rfl rfl rfl (fun u _ => rfl)

/-- C2 (code bug evidence): seeding twice from an empty database raises no
error (both runs return status 200) and leaves the users, customers and
revenue row counts unchanged, but the invoices row count doubles: the
invoices insert supplies no id, so its `ON CONFLICT (id) DO NOTHING` clause
can never fire (the id is freshly generated each run) and the second run
inserts a duplicate of every placeholder invoice, contradicting the claimed
idempotence. -/
theorem claim_C2_bug :
    (seedGET sampleEnv sampleData DB.empty).1.status = 200 ∧
    (seedGET sampleEnv sampleData ((seedGET sampleEnv sampleData DB.empty).2.1)).1.status = 200 ∧
    (((seedGET sampleEnv sampleData DB.empty).2.1).usersTbl.getD []).length = 1 ∧
    (((seedGET sampleEnv sampleData DB.empty).2.1).customersTbl.getD []).length = 1 ∧
    (((seedGET sampleEnv sampleData DB.empty).2.1).revenueTbl.getD []).length = 1 ∧
    (((seedGET sampleEnv sampleData DB.empty).2.1).invoicesTbl.getD []).length = 1 ∧
    (((seedGET sampleEnv sampleData ((seedGET sampleEnv sampleData DB.empty).2.1)).2.1).usersTbl.getD []).length = 1 ∧
    (((seedGET sampleEnv sampleData ((seedGET sampleEnv sampleData DB.empty).2.1)).2.1).customersTbl.getD []).length = 1 ∧
    (((seedGET sampleEnv sampleData ((seedGET sampleEnv sampleData DB.empty).2.1)).2.1).revenueTbl.getD []).length = 1 ∧
    (((seedGET sampleEnv sampleData ((seedGET sampleEnv sampleData DB.empty).2.1)).2.1).invoicesTbl.getD []).length = 2 := by
  decide

/-- C3: with the DDL statements and password hashes succeeding, the seed
invocation reaches commit (status 200, full event trace) from any database
state no matter which individual row inserts fail; and, concretely, when
exactly one placeholder invoice references a non-existent customer id, the
run from an empty database commits and the final invoices table holds
exactly the other invoices, in order — only the offending row is absent. -/
theorem claim_C3 :
    (∀ (E : Env) (D : Dataset) (db : DB),
      E.extOk = true → E.ddlUsersOk = true → E.ddlCustomersOk = true →
      E.ddlInvoicesOk = true → E.ddlRevenueOk = true →
      (∀ u ∈ D.users, E.hashOk u.password = true) →
      (seedGET E D db).1.status = 200 ∧ (seedGET E D db).2.2 = seedEventOrder)
    ∧
    (∀ (E : Env) (D : Dataset) (L1 L2 : List InvoiceSeed) (bad : InvoiceSeed),
      E.extOk = true → E.ddlUsersOk = true → E.ddlCustomersOk = true →
      E.ddlInvoicesOk = true → E.ddlRevenueOk = true →
      (∀ u ∈ D.users, E.hashOk u.password = true) →
      (∀ c ∈ D.customers, E.customerInsertOk c = true) →
      (∀ iv ∈ D.invoices, E.invoiceInsertOk iv = true) →
      (D.customers.map CustomerSeed.id).Nodup →
      (D.customers.map CustomerSeed.email).Nodup →
      D.invoices = L1 ++ bad :: L2 →
      (∀ iv ∈ L1 ++ L2, D.customers.any (fun c => c.id == iv.customer_id) = true) →
      D.customers.any (fun c => c.id == bad.customer_id) = false →
      ∃ db' tr, seedTx E D DB.empty = (.ok db', tr) ∧
        (db'.invoicesTbl.getD []).map invoiceRowData = (L1 ++ L2).map invoiceSeedData) := by
  constructor
  · intro E D db hext hddlU hddlC hddlI hddlR hhash
    exact seedGET_ok_of_flags E D db hext hddlU hddlC hddlI hddlR hhash
  · intro E D L1 L2 bad hext hddlU hddlC hddlI hddlR hhash hcok hivok hids hemails hsplit hres hbad
    have h1 : createExtensions E DB.empty = .ok (⟨true, none, none, none, none, 0⟩ : DB) := by
      unfold createExtensions
      rw [if_pos hext]
      exact rfl
    obtain ⟨db2, h2⟩ := seedUsers_ok (E := E) (D := D) (⟨true, none, none, none, none, 0⟩ : DB) hddlU hhash
    obtain ⟨hf2e, hf2c, hf2i, hf2r, hf2n⟩ := seedUsers_frame h2
    have hc2 : db2.customersTbl = none := hf2c
    have hi2 : db2.invoicesTbl = none := hf2i
    have hcr3 : createCustomersTable E db2 = .ok { db2 with customersTbl := some [] } := by
      unfold createCustomersTable
      rw [if_pos hddlC, hc2]
    obtain ⟨db3, hs3, ht3, hf3e, hf3u, hf3i, hf3r, hf3n⟩ :=
      seedRows_customers_append (E := E) D.customers [] { db2 with customersTbl := some [] } rfl
        hcok (fun c _ r hr => absurd hr (List.not_mem_nil r)) hids hemails
    have h3 : seedCustomers E D db2 = .ok db3 := by
      unfold seedCustomers
      rw [hcr3]
      exact hs3
    simp only [List.nil_append] at ht3
    have hi3 : db3.invoicesTbl = none := by
      rw [hf3i]
      exact hi2
    have hcr4 : createInvoicesTable E db3 = .ok { db3 with invoicesTbl := some [] } := by
      unfold createInvoicesTable
      rw [if_pos hddlI, hi3, ht3]
    have hcs4 : ({ db3 with invoicesTbl := some [] } : DB).customersTbl = some (D.customers.map custRow) := ht3
    obtain ⟨db4, hs4, ht4, hf4e, hf4u, hf4c, hf4r⟩ :=
      seedRows_invoices_append (E := E) D.invoices [] { db3 with invoicesTbl := some [] } rfl hcs4 hivok
    have h4 : seedInvoices E D db3 = .ok db4 := by
      unfold seedInvoices
      rw [hcr4]
      exact hs4
    simp only [List.nil_append] at ht4
    obtain ⟨db5, h5⟩ := seedRevenue_ok (E := E) (D := D) db4 hddlR
    obtain ⟨hf5e, hf5u, hf5c, hf5i, hf5n⟩ := seedRevenue_frame h5
    have htx := seedTx_build h1 h2 h3 h4 h5
    refine ⟨db5, seedEventOrder.dropLast, htx, ?_⟩
    rw [hf5i, ht4]
    simp only [Option.getD_some]
    rw [invoiceRowsFrom_data]
    have hcond : ∀ iv : InvoiceSeed,
        (D.customers.map custRow).any (fun c => c.id == iv.customer_id) =
          D.customers.any (fun c => c.id == iv.customer_id) :=
      fun iv => any_map_custRow D.customers iv.customer_id
    simp only [hcond]
    rw [hsplit, List.filter_append, List.filter_cons]
    rw [if_neg (by simp [hbad])]
    have hL1 : L1.filter (fun iv => D.customers.any (fun c => c.id == iv.customer_id)) = L1 :=
      List.filter_eq_self.mpr (fun a ha => hres a (List.mem_append_left _ ha))
    have hL2 : L2.filter (fun iv => D.customers.any (fun c => c.id == iv.customer_id)) = L2 :=
      List.filter_eq_self.mpr (fun a ha => hres a (List.mem_append_right _ ha))
    rw [hL1, hL2]

/-- C3 witness: on the sample dataset every flag succeeds and the trace is
canonical; on the dataset whose middle invoice references the non-existent
customer id "ghost", the run commits and exactly the two valid invoices are
stored, in order. -/
theorem claim_C3_witness :
    ((seedGET sampleEnv sampleData DB.empty).1.status = 200 ∧
      (seedGET sampleEnv sampleData DB.empty).2.2 = seedEventOrder) ∧
    (∃ db' tr, seedTx sampleEnv sampleData3 DB.empty = (.ok db', tr) ∧
      (db'.invoicesTbl.getD []).map invoiceRowData =
        ([⟨"c1", 100, "paid", "2024-01-01"⟩, ⟨"c1", 300, "paid", "2024-01-03"⟩] : List InvoiceSeed).map invoiceSeedData) := by
  constructor
  · exact claim_C3.1 sampleEnv sampleData DB.empty rfl rfl rfl rfl rfl (fun u _ => rfl)
  · exact claim_C3.2 sampleEnv sampleData3
      [⟨"c1", 100, "paid", "2024-01-01"⟩] [⟨"c1", 300, "paid", "2024-01-03"⟩]
      ⟨"ghost", 200, "pending", "2024-01-02"⟩
      rfl rfl rfl rfl rfl (fun u _ => rfl) (fun c _ => rfl) (fun iv _ => rfl)
      (by decide) (by decide) rfl (by decide) (by decide)

end NextRoutes
